import Mathlib

/-!
Shallow embedding of the piece-table text buffer implemented in
src/piece_table.c, together with theorems settling the claims about it.

Modelling conventions:

- C byte buffers are NUL-terminated char arrays. A buffer is modelled as the
  list of its content bytes, without the terminator. Reading a buffer at an
  index uses List.getD with the NUL character as default, so an index equal
  to the content length yields the terminator byte, exactly as in C. Reads
  even further out are undefined behaviour in C; the model totalises them to
  NUL and no theorem below depends on such a read.
- The singly linked piece chain is modelled as a list of piece values. A C
  piece pointer is modelled as the index of the piece in that list at the
  moment the pointer is taken.
- unsigned int arithmetic is modelled with Nat. Where the source can wrap
  around zero, the model uses explicit arithmetic modulo 4294967296
  (piece_table_get_line); at every other subtraction the call sites keep the
  subtrahend no larger than the minuend, where Nat and unsigned agree.
- Allocation (calloc, strdup, realloc) never fails in the model.
- strlen and strdup stop at the first NUL byte; cstr and strlen below model
  this. Caller supplied strings are NUL-free char lists, as C strings are.
-/

def nul : Char := Char.ofNat 0

/-- Read one byte of a buffer; index equal to the length reads the C string
terminator. -/
def byteAt (buf : List Char) (i : Nat) : Char := buf.getD i nul

/-- Read n consecutive bytes starting at a given offset. -/
def readRange (buf : List Char) (start n : Nat) : List Char :=
  (List.range n).map (fun j => byteAt buf (start + j))

/-- Content a C string copy (strdup) keeps: everything before the first NUL. -/
def cstr (s : List Char) : List Char := s.takeWhile (fun c => c != nul)

/-- Model of strlen. -/
def strlen (s : List Char) : Nat := (cstr s).length

def concatAll (ls : List (List Char)) : List Char := ls.foldr (fun a b => a ++ b) []

inductive buffer_type
  | ORIGINAL
  | ADD
  deriving DecidableEq, Repr

inductive operation_type
  | INSERT
  | REMOVE
  | REPLACE
  deriving DecidableEq, Repr

/-- Piece of the chain (struct piece): a view into one of the two buffers. -/
structure piece where
  buffer : buffer_type
  start_position : Nat
  length : Nat
  deriving DecidableEq, Repr

/-- Deprecated pointer-based journal record (struct operation). The four raw
piece pointers of the C struct are not representable in a pure embedding and
no claim inspects them; only the operation kind is kept. -/
structure operation where
  type : operation_type
  deriving DecidableEq, Repr

/-- Command-based journal record (struct memsafe_operation). -/
structure memsafe_operation where
  type : operation_type
  start_position : Nat
  length : Nat
  inserted_string : Option (List Char)
  removed_string : Option (List Char)
  deriving DecidableEq, Repr

/-- The piece table (struct piece_table). The two stack-top pointers of each
journal become lists; the piece_with_micro_inserts pointer becomes the index
of the anchor piece in the chain at the time the session was opened. -/
structure piece_table where
  original_buffer : List Char
  add_buffer : List Char
  pieces : List piece
  undo_stack : List operation
  redo_stack : List operation
  memsafe_undo_stack : List memsafe_operation
  memsafe_redo_stack : List memsafe_operation
  piece_with_micro_inserts : Option Nat
  undo_with_micro_inserts : Option operation
  deriving DecidableEq, Repr

def insertAfterIdx (l : List piece) (i : Nat) (x : piece) : List piece :=
  l.take (i + 1) ++ x :: l.drop (i + 1)

def insertBeforeIdx (l : List piece) (i : Nat) (x : piece) : List piece :=
  l.take i ++ x :: l.drop i

def removeIdx (l : List piece) (i : Nat) : List piece :=
  l.take i ++ l.drop (i + 1)

/-- Embedding of split_piece_at (piece_table.c lines 513-533). The source
builds the right-hand piece as piece_new(p.buffer, offset, p.length - offset
+ 1): the start position is the bare offset, dropping the start position of
p, and the length carries a plus one; both are kept faithfully. Returns none
exactly when the C function returns false (offset zero, or no piece). Every
call site reached in the theorems keeps offset at most the piece length, so
Nat subtraction agrees with the unsigned subtraction of the source. -/
def split_piece_at (l : List piece) (i offset : Nat) : Option (List piece) :=
  if offset = 0 then none
  else
    match l[i]? with
    | none => none
    | some p =>
        some (l.take i ++ { p with length := offset } ::
          piece.mk p.buffer offset (p.length - offset + 1) :: l.drop (i + 1))

/-- Position resolution loop that every operation of the source repeats: walk
the chain while the remaining offset exceeds the piece length. Returns the
index of the piece where the walk stops, the piece itself, and the local
offset, which may equal the piece length. Returns none when the walk runs off
the end of the chain (position out of bounds). -/
def resolve : List piece → Nat → Option (Nat × piece × Nat)
  | [], _ => none
  | p :: ps, off =>
      if off ≤ p.length then some (0, p, off)
      else
        match resolve ps (off - p.length) with
        | none => none
        | some (i, q, r) => some (i + 1, q, r)

def bufferOf (t : piece_table) : buffer_type → List Char
  | buffer_type.ORIGINAL => t.original_buffer
  | buffer_type.ADD => t.add_buffer

def renderPiece (t : piece_table) (p : piece) : List Char :=
  readRange (bufferOf t p.buffer) p.start_position p.length

/-- Embedding of piece_table_to_string (piece_table.c lines 1538-1572): the
logical document, the concatenation of the bytes referenced by each piece. -/
def piece_table_to_string (t : piece_table) : List Char :=
  concatAll (t.pieces.map (renderPiece t))

/-- Embedding of piece_table_get_length (piece_table.c lines 1574-1590). -/
def piece_table_get_length (t : piece_table) : Nat :=
  (t.pieces.map (fun p => p.length)).sum

/-- Embedding of piece_table_new (piece_table.c lines 734-755). -/
def piece_table_new : piece_table :=
  ⟨[], [], [], [], [], [], [], none, none⟩

/-- Embedding of piece_table_from_string (piece_table.c lines 757-783). -/
def piece_table_from_string (s : List Char) : piece_table :=
  { piece_table_new with
      original_buffer := cstr s
      pieces := [piece.mk buffer_type.ORIGINAL 0 (strlen s)] }

/-- Embedding of memsafe_operation_new (piece_table.c lines 284-329); the
strdup of each payload stops at the first NUL byte. -/
def memsafe_operation_new (ty : operation_type) (start_position length : Nat)
    (inserted removed : Option (List Char)) : memsafe_operation :=
  ⟨ty, start_position, length, inserted.map cstr, removed.map cstr⟩

/-- Embedding of move_memsafe_operation_from_undo_to_redo_stack
(piece_table.c lines 398-424). -/
def move_memsafe_operation_from_undo_to_redo_stack (t : piece_table) :
    Bool × piece_table :=
  match t.memsafe_undo_stack with
  | [] => (false, t)
  | op :: rest =>
      (true, { t with memsafe_undo_stack := rest,
                      memsafe_redo_stack := op :: t.memsafe_redo_stack })

/-- Embedding of move_memsafe_operation_from_redo_to_undo_stack
(piece_table.c lines 426-452). -/
def move_memsafe_operation_from_redo_to_undo_stack (t : piece_table) :
    Bool × piece_table :=
  match t.memsafe_redo_stack with
  | [] => (false, t)
  | op :: rest =>
      (true, { t with memsafe_redo_stack := rest,
                      memsafe_undo_stack := op :: t.memsafe_undo_stack })

/-- Chain update performed by the insertion body: link the new ADD piece
after, before, or inside the resolved piece, splitting the piece when the
local offset falls strictly inside it. -/
def insert_core_pieces (l : List piece) (i : Nat) (p : piece) (rem : Nat)
    (newp : piece) : Option (List piece) :=
  if rem = p.length then some (insertAfterIdx l i newp)
  else if rem = 0 then some (insertBeforeIdx l i newp)
  else
    match split_piece_at l i rem with
    | none => none
    | some ps => some (insertAfterIdx ps i newp)

/-- Insertion body of the source, shared verbatim between piece_table_insert
(piece_table.c lines 799-949, without the journal push), the insert phase of
piece_table_memsafe_replace (lines 2090-2173) and memsafe_undo_remove (lines
2380-2460): resolve the position, append the string to the ADD buffer, link
a new piece. On the out-of-bounds path nothing is touched; a linking failure
after the append leaves the append in place, as the in-place C code does. -/
def insert_core (t : piece_table) (position : Nat) (string : List Char) :
    Bool × piece_table :=
  match resolve t.pieces position with
  | none => (false, t)
  | some (i, p, rem) =>
      match insert_core_pieces t.pieces i p rem
          (piece.mk buffer_type.ADD t.add_buffer.length (strlen string)) with
      | none => (false, { t with add_buffer := t.add_buffer ++ cstr string })
      | some ps => (true, { t with add_buffer := t.add_buffer ++ cstr string,
                                   pieces := ps })

/-- Embedding of piece_table_insert (piece_table.c lines 785-950). The
memsafe Insert record is pushed as soon as the position resolves, before the
buffer append and the chain surgery; the redo stacks are never touched. -/
def piece_table_insert (t : piece_table) (position : Nat) (string : List Char) :
    Bool × piece_table :=
  match resolve t.pieces position with
  | none => (false, t)
  | some _ =>
      let t1 := { t with memsafe_undo_stack :=
        memsafe_operation_new operation_type.INSERT position 0 (some string) none ::
          t.memsafe_undo_stack }
      insert_core t1 position string

def get_char_at_go (t : piece_table) : List piece → Nat → Char
  | [], _ => nul
  | p :: ps, rem =>
      if rem ≤ p.length then byteAt (bufferOf t p.buffer) (p.start_position + rem)
      else get_char_at_go t ps (rem - p.length)

/-- Embedding of piece_table_get_char_at (piece_table.c lines 1412-1435):
the resolution loop returns the byte at start_position + local_offset of the
piece where it stops, and NUL when the position never resolves. -/
def piece_table_get_char_at (t : piece_table) (position : Nat) : Char :=
  get_char_at_go t t.pieces position

/-- Embedding of piece_table_get_slice (piece_table.c lines 1437-1536). In
both the same-piece copy and the first-fragment copy the source indexes the
buffer by the local offset alone, without adding the start position of the
starting piece; this is kept faithfully. -/
def piece_table_get_slice (t : piece_table) (position length : Nat) :
    Option (List Char) :=
  match resolve t.pieces position with
  | none => none
  | some (si, sp, so) =>
  match resolve t.pieces (position + length) with
  | none => none
  | some (ei, ep, eo) =>
      if si = ei then some (readRange (bufferOf t sp.buffer) so length)
      else
        let first := readRange (bufferOf t sp.buffer) so (sp.length - so)
        let mids := ((t.pieces.drop (si + 1)).take (ei - si - 1)).map (renderPiece t)
        let last := readRange (bufferOf t ep.buffer) ep.start_position eo
        some (first ++ concatAll mids ++ last)

/-- State of the newline scan of piece_table_get_line. -/
structure line_scan where
  tokens : Nat
  startIdx : Nat
  startOff : Nat
  endIdx : Nat
  endOff : Nat
  found : Bool
  deriving DecidableEq, Repr

/-- One step of the inner character loop of piece_table_get_line (lines
1612-1634). The unsigned expression i - 1 is modelled as arithmetic modulo
4294967296, matching unsigned int wraparound when i is zero. -/
def scan_char (buf : List Char) (p : piece) (line pieceIdx : Nat)
    (st : line_scan) (i : Nat) : line_scan :=
  if st.found then st
  else if byteAt buf (p.start_position + i) ≠ '\n' then st
  else
    let st1 := { st with tokens := st.tokens + 1 }
    let st2 := if st1.tokens = line - 1 then
        { st1 with startIdx := pieceIdx, startOff := i + 1 } else st1
    if st2.tokens = line then
      { st2 with endIdx := pieceIdx,
                 endOff := (i + 4294967296 - 1) % 4294967296,
                 found := true }
    else st2

/-- Outer piece loop of the newline scan of piece_table_get_line. -/
def scan_pieces (t : piece_table) (line : Nat) :
    List piece → Nat → line_scan → line_scan
  | [], _, st => st
  | p :: ps, idx, st =>
      if st.found then st
      else
        scan_pieces t line ps (idx + 1)
          ((List.range p.length).foldl (scan_char (bufferOf t p.buffer) p line idx) st)

/-- Embedding of piece_table_get_line (piece_table.c lines 1592-1720). The
unsigned subtractions i - 1 and ending offset - starting offset + 1 are
modelled with explicit arithmetic modulo 4294967296. An empty chain is
modelled as failure; the source dereferences a null pointer there. -/
def piece_table_get_line (t : piece_table) (line : Nat) : Option (List Char) :=
  match t.pieces with
  | [] => none
  | _ :: _ =>
      let st := scan_pieces t line t.pieces 0 (line_scan.mk 0 0 0 0 0 false)
      if line > st.tokens + 1 then none
      else
        let lastIdx := t.pieces.length - 1
        let endIdx := if st.found then st.endIdx else lastIdx
        let endOff := if st.found then st.endOff
          else (t.pieces.getD lastIdx (piece.mk buffer_type.ORIGINAL 0 0)).length
        let sp := t.pieces.getD st.startIdx (piece.mk buffer_type.ORIGINAL 0 0)
        let ep := t.pieces.getD endIdx (piece.mk buffer_type.ORIGINAL 0 0)
        if st.startIdx = endIdx then
          let lineLength := (endOff + 4294967296 + 1 - st.startOff) % 4294967296
          some (readRange (bufferOf t sp.buffer)
            (sp.start_position + st.startOff) lineLength)
        else
          let first := readRange (bufferOf t sp.buffer)
            (sp.start_position + st.startOff) (sp.length - st.startOff)
          let mids := ((t.pieces.drop (st.startIdx + 1)).take
            (endIdx - st.startIdx - 1)).map (renderPiece t)
          let last := readRange (bufferOf t ep.buffer) ep.start_position endOff
          some (first ++ concatAll mids ++ last)

/-- Removal body shared verbatim in the source by piece_table_memsafe_remove
(piece_table.c lines 1879-1959), the removal phase of
piece_table_memsafe_replace (lines 2030-2082) and memsafe_undo_insert (lines
2283-2363). Failure cases return the chain as mutated so far, exactly as the
in-place C code leaves it. The two resolutions mirror the two loops the
source runs before this body. -/
def remove_core_pieces (l : List piece) (position length : Nat) :
    Bool × List piece :=
  match resolve l position with
  | none => (false, l)
  | some (si, sp, so) =>
  match resolve l (position + length) with
  | none => (false, l)
  | some (ei, ep, eo) =>
  if si = ei then
    if so + length = ep.length then
      (true, l.set si { sp with length := sp.length - length })
    else
      match split_piece_at l si (so + length) with
      | none => (false, l)
      | some ps1 =>
          match split_piece_at ps1 si so with
          | none => (false, ps1)
          | some ps2 => (true, removeIdx ps2 (si + 1))
  else
    match (if so = sp.length then some (l, ei)
           else match split_piece_at l si so with
                | none => none
                | some ps => some (ps, ei + 1)) with
    | none => (false, l)
    | some (psA, ei2) =>
        match (if eo = ep.length then some psA
               else split_piece_at psA ei2 (eo + 1)) with
        | none => (false, psA)
        | some psB =>
            if ei2 = si + 1 then (true, removeIdx psB ei2)
            else (true, psB.take (si + 1) ++ psB.drop (ei2 + 1))

/-- Embedding of piece_table_memsafe_remove (piece_table.c lines 1817-1960).
The Remove record, holding the slice about to disappear, is pushed before the
chain is touched; a later failure leaves it on the stack. -/
def piece_table_memsafe_remove (t : piece_table) (position length : Nat) :
    Bool × piece_table :=
  match resolve t.pieces position with
  | none => (false, t)
  | some _ =>
  match resolve t.pieces (position + length) with
  | none => (false, t)
  | some _ =>
      let msop := memsafe_operation_new operation_type.REMOVE position length none
        (piece_table_get_slice t position length)
      let t1 := { t with memsafe_undo_stack := msop :: t.memsafe_undo_stack }
      let r := remove_core_pieces t1.pieces position length
      (r.1, { t1 with pieces := r.2 })

/-- Embedding of piece_table_memsafe_replace (piece_table.c lines 1962-2174):
push a single Replace record, run the removal body, then the insertion
body. -/
def piece_table_memsafe_replace (t : piece_table) (position length : Nat)
    (string : List Char) : Bool × piece_table :=
  match resolve t.pieces position with
  | none => (false, t)
  | some _ =>
  match resolve t.pieces (position + length) with
  | none => (false, t)
  | some _ =>
      let msop := memsafe_operation_new operation_type.REPLACE position length
        (some string) (piece_table_get_slice t position length)
      let t1 := { t with memsafe_undo_stack := msop :: t.memsafe_undo_stack }
      let r := remove_core_pieces t1.pieces position length
      if r.1 then insert_core { t1 with pieces := r.2 } position string
      else (false, { t1 with pieces := r.2 })

/-- Embedding of memsafe_undo_insert (piece_table.c lines 2228-2364): remove
strlen(inserted) bytes at the recorded position, without journaling. A
missing inserted string makes the source call strlen on a null pointer;
modelled as failure. -/
def memsafe_undo_insert (t : piece_table) (op : memsafe_operation) :
    Bool × piece_table :=
  match op.inserted_string with
  | none => (false, t)
  | some ins =>
      let r := remove_core_pieces t.pieces op.start_position (strlen ins)
      (r.1, { t with pieces := r.2 })

/-- Embedding of memsafe_undo_remove (piece_table.c lines 2366-2461): insert
the recorded removed string back at the recorded position, without
journaling. A missing removed string makes the source call strlen on a null
pointer; modelled as failure. -/
def memsafe_undo_remove (t : piece_table) (op : memsafe_operation) :
    Bool × piece_table :=
  match op.removed_string with
  | none => (false, t)
  | some s => insert_core t op.start_position s

/-- Embedding of memsafe_undo_replace (piece_table.c lines 2463-2486). -/
def memsafe_undo_replace (t : piece_table) (op : memsafe_operation) :
    Bool × piece_table :=
  match memsafe_undo_insert t op with
  | (false, t1) => (false, t1)
  | (true, t1) => memsafe_undo_remove t1 op

/-- Embedding of memsafe_redo_insert (piece_table.c lines 2488-2501): the
source delegates to memsafe_undo_remove, so redoing an Insert record inserts
the removed string field of the record. -/
def memsafe_redo_insert (t : piece_table) (op : memsafe_operation) :
    Bool × piece_table :=
  memsafe_undo_remove t op

/-- Embedding of memsafe_redo_remove (piece_table.c lines 2503-2516): the
source delegates to memsafe_undo_insert. -/
def memsafe_redo_remove (t : piece_table) (op : memsafe_operation) :
    Bool × piece_table :=
  memsafe_undo_insert t op

/-- Embedding of memsafe_redo_replace (piece_table.c lines 2518-2541). -/
def memsafe_redo_replace (t : piece_table) (op : memsafe_operation) :
    Bool × piece_table :=
  match memsafe_redo_remove t op with
  | (false, t1) => (false, t1)
  | (true, t1) => memsafe_redo_insert t1 op

/-- Embedding of piece_table_memsafe_undo (piece_table.c lines 2543-2581).
The helper result is discarded; the record then moves from undo to redo. -/
def piece_table_memsafe_undo (t : piece_table) : Bool × piece_table :=
  match t.memsafe_undo_stack with
  | [] => (false, t)
  | op :: _ =>
      let t1 := (match op.type with
        | operation_type.INSERT => memsafe_undo_insert t op
        | operation_type.REMOVE => memsafe_undo_remove t op
        | operation_type.REPLACE => memsafe_undo_replace t op).2
      move_memsafe_operation_from_undo_to_redo_stack t1

/-- Embedding of piece_table_memsafe_redo (piece_table.c lines 2583-2620). -/
def piece_table_memsafe_redo (t : piece_table) : Bool × piece_table :=
  match t.memsafe_redo_stack with
  | [] => (false, t)
  | op :: _ =>
      let t1 := (match op.type with
        | operation_type.INSERT => memsafe_redo_insert t op
        | operation_type.REMOVE => memsafe_redo_remove t op
        | operation_type.REPLACE => memsafe_redo_replace t op).2
      move_memsafe_operation_from_redo_to_undo_stack t1

/-- Embedding of piece_table_start_micro_inserts (piece_table.c lines
952-1079): link a zero-length ADD piece at the resolved position and store
it, together with a pointer-based Insert operation, in the session fields.
The stored piece pointer is modelled as the index of the anchor at creation
time. -/
def piece_table_start_micro_inserts (t : piece_table) (position : Nat) :
    Bool × piece_table :=
  match resolve t.pieces position with
  | none => (false, t)
  | some (i, p, rem) =>
      let anchor := piece.mk buffer_type.ADD t.add_buffer.length 0
      if rem = p.length then
        (true, { t with pieces := insertAfterIdx t.pieces i anchor,
                        piece_with_micro_inserts := some (i + 1),
                        undo_with_micro_inserts := some (operation.mk operation_type.INSERT) })
      else if rem = 0 then
        (true, { t with pieces := insertBeforeIdx t.pieces i anchor,
                        piece_with_micro_inserts := some i,
                        undo_with_micro_inserts := some (operation.mk operation_type.INSERT) })
      else
        match split_piece_at t.pieces i rem with
        | none => (false, t)
        | some ps =>
            (true, { t with pieces := insertAfterIdx ps i anchor,
                            piece_with_micro_inserts := some (i + 1),
                            undo_with_micro_inserts := some (operation.mk operation_type.INSERT) })

/-- Embedding of piece_table_micro_insert (piece_table.c lines 1081-1134):
append to the ADD buffer and grow the anchor piece. -/
def piece_table_micro_insert (t : piece_table) (string : List Char) :
    Bool × piece_table :=
  match t.piece_with_micro_inserts with
  | none => (false, t)
  | some idx =>
      match t.undo_with_micro_inserts with
      | none => (false, t)
      | some _ =>
          let t2 := { t with add_buffer := t.add_buffer ++ cstr string }
          match t2.pieces[idx]? with
          | none => (false, t2)
          | some p =>
              let grown := { p with length := p.length + strlen string }
              (true, { t2 with pieces := t2.pieces.set idx grown })

/-- Embedding of piece_table_stop_micro_inserts (piece_table.c lines
1136-1159): push the stored pointer-based operation onto the deprecated undo
stack and clear the session fields. The memsafe stacks are not touched. -/
def piece_table_stop_micro_inserts (t : piece_table) : Bool × piece_table :=
  match t.undo_with_micro_inserts with
  | none => (false, t)
  | some op =>
      (true, { t with undo_stack := op :: t.undo_stack,
                      piece_with_micro_inserts := none,
                      undo_with_micro_inserts := none })

/-- Straightforward string manipulation of an insert, following the words of
the specification: the text spliced in at the position. -/
def spliceInsert (doc : List Char) (pos : Nat) (text : List Char) : List Char :=
  doc.take pos ++ text ++ doc.drop pos

/-- Straightforward string manipulation of a remove, following the words of
the specification: the bytes of the range deleted. -/
def spliceRemove (doc : List Char) (pos n : Nat) : List Char :=
  doc.take pos ++ doc.drop (pos + n)

def abStr : List Char := ['a', 'b']

def abcdStr : List Char := ['a', 'b', 'c', 'd']

def abcdeStr : List Char := ['a', 'b', 'c', 'd', 'e']

def holaStr : List Char :=
  ['H', 'o', 'l', 'a', '\n', 'C', 'o', 'l', 'a', '\n', 'G', 'o', 'l', 'a']

/-- State after inserting X at position 2 of abcd. -/
def c2_applied : piece_table :=
  (piece_table_insert (piece_table_from_string abcdStr) 2 ['X']).2

/-- State after the memsafe replace of range 2, 2 of abcd by XY. -/
def c3_applied : piece_table :=
  (piece_table_memsafe_replace (piece_table_from_string abcdStr) 2 2 ['X', 'Y']).2

def c3_undone : piece_table := (piece_table_memsafe_undo c3_applied).2

def c3_redone : piece_table := (piece_table_memsafe_redo c3_undone).2

/-- Two pieces: abcde in ORIGINAL followed by xy in ADD. -/
def c4_table : piece_table :=
  (piece_table_insert (piece_table_from_string abcdeStr) 5 ['x', 'y']).2

/-- Three pieces; the last has a nonzero start position inside ADD. -/
def c5_table : piece_table :=
  (piece_table_insert
    (piece_table_insert (piece_table_from_string abcdStr) 4 ['W', 'X']).2
    6 ['Y', 'Z']).2

def c6_table : piece_table := piece_table_from_string holaStr

/-- Chain of a single piece whose start position is nonzero. -/
def c7_table : piece_table :=
  { piece_table_new with original_buffer := abcdStr,
                         pieces := [piece.mk buffer_type.ORIGINAL 1 3] }

def c8_t1 : piece_table :=
  (piece_table_insert (piece_table_from_string abStr) 2 ['X']).2

def c8_t2 : piece_table := (piece_table_memsafe_undo c8_t1).2

def c8_s1 : piece_table :=
  (piece_table_start_micro_inserts (piece_table_from_string abStr) 0).2

/-- State with an open micro-insert session anchored at position 0 of abcd. -/
def c10_open : piece_table :=
  (piece_table_start_micro_inserts (piece_table_from_string abcdStr) 0).2

/-- Claim C1: a valid edit should report success and make to_string equal the
straightforward splice. On the document abcd the insert of X at position 2
succeeds, but the resulting document is the six bytes a b X c d NUL: the
split inside the piece leaves a right-hand piece one byte too long, so the
result differs from the splice a b X c d. -/
theorem claim1_insert_divergence :
    (piece_table_insert (piece_table_from_string abcdStr) 2 ['X']).1 = true ∧
    piece_table_to_string (piece_table_insert (piece_table_from_string abcdStr) 2 ['X']).2 =
      ['a', 'b', 'X', 'c', 'd', nul] ∧
    spliceInsert (piece_table_to_string (piece_table_from_string abcdStr)) 2 ['X'] =
      ['a', 'b', 'X', 'c', 'd'] ∧
    piece_table_to_string (piece_table_insert (piece_table_from_string abcdStr) 2 ['X']).2 ≠
      spliceInsert (piece_table_to_string (piece_table_from_string abcdStr)) 2 ['X'] := by
  decide

/-- Claim C2: undo after a valid edit should restore the previous document
byte for byte. After inserting X at position 2 of abcd, undo reports success
but the document is the five bytes a b c d NUL, not abcd: the undo removes
the inserted byte, yet the corrupt split performed by the insert leaves a
stray terminator byte behind. -/
theorem claim2_undo_divergence :
    (piece_table_memsafe_undo c2_applied).1 = true ∧
    piece_table_to_string (piece_table_memsafe_undo c2_applied).2 =
      ['a', 'b', 'c', 'd', nul] ∧
    piece_table_to_string (piece_table_from_string abcdStr) = abcdStr ∧
    piece_table_to_string (piece_table_memsafe_undo c2_applied).2 ≠
      piece_table_to_string (piece_table_from_string abcdStr) := by
  decide

/-- Claim C3: redo after undo should restore the document produced by the
edit. Replacing range 2, 2 of abcd by XY yields abXY, undo restores abcd,
but redo then yields abcd again instead of abXY: redoing a Replace record
re-inserts the removed string, because memsafe_redo_insert delegates to
memsafe_undo_remove. -/
theorem claim3_redo_divergence :
    (piece_table_memsafe_replace (piece_table_from_string abcdStr) 2 2 ['X', 'Y']).1 = true ∧
    piece_table_to_string c3_applied = ['a', 'b', 'X', 'Y'] ∧
    piece_table_to_string c3_undone = abcdStr ∧
    (piece_table_memsafe_redo c3_undone).1 = true ∧
    piece_table_to_string c3_redone = abcdStr ∧
    piece_table_to_string c3_redone ≠ piece_table_to_string c3_applied := by
  decide

/-- Claim C4: char_at at a valid position should equal the byte of to_string
there. The document abcdexy is stored as the piece abcde followed by the
piece xy; char_at 5 resolves with local offset equal to the first piece
length and reads one byte past that piece, returning the NUL terminator of
the ORIGINAL buffer instead of x. -/
theorem claim4_char_at_divergence :
    piece_table_to_string c4_table = ['a', 'b', 'c', 'd', 'e', 'x', 'y'] ∧
    piece_table_get_char_at c4_table 5 = nul ∧
    (piece_table_to_string c4_table).getD 5 nul = 'x' ∧
    piece_table_get_char_at c4_table 5 ≠ (piece_table_to_string c4_table).getD 5 nul := by
  decide

/-- Claim C5: slice of a valid range should equal the corresponding segment
of to_string. On the document abcdWXYZ whose last piece starts at offset 2
of the ADD buffer, slice 7 1 returns X instead of Z: the same-piece copy
indexes the buffer by the local offset alone and forgets the start position
of the piece. -/
theorem claim5_slice_divergence :
    piece_table_to_string c5_table = ['a', 'b', 'c', 'd', 'W', 'X', 'Y', 'Z'] ∧
    piece_table_get_slice c5_table 7 1 = some ['X'] ∧
    ((piece_table_to_string c5_table).drop 7).take 1 = ['Z'] ∧
    piece_table_get_slice c5_table 7 1 ≠
      some (((piece_table_to_string c5_table).drop 7).take 1) := by
  decide

/-- Claim C6: concatenating the lines interleaved with newline bytes should
reconstruct to_string, each line excluding its terminating newline. On the
three line document Hola Cola Gola the third line comes back as the five
bytes G o l a NUL: for the last line the code sets the ending offset to the
piece length but still computes the length with the plus one of the
inclusive-end case, so the reconstruction has a stray byte. -/
theorem claim6_line_divergence :
    piece_table_get_line c6_table 1 = some ['H', 'o', 'l', 'a'] ∧
    piece_table_get_line c6_table 2 = some ['C', 'o', 'l', 'a'] ∧
    piece_table_get_line c6_table 3 = some ['G', 'o', 'l', 'a', nul] ∧
    ((piece_table_get_line c6_table 1).getD [] ++ '\n' ::
     (piece_table_get_line c6_table 2).getD [] ++ '\n' ::
     (piece_table_get_line c6_table 3).getD []) ≠ piece_table_to_string c6_table := by
  decide

/-- Claim C7: splitting a piece strictly inside should produce two pieces
covering exactly the bytes the piece covered. On the piece with start 1 and
length 3 over the buffer abcd, which covers bcd, splitting at offset 1
produces pieces with start 1 length 1 and start 1 length 3: the right piece
keeps neither the correct start (1 + 1) nor the correct length (3 - 1), and
the chain now covers b b c d, so the document changes. -/
theorem claim7_split_divergence :
    split_piece_at c7_table.pieces 0 1 =
      some [piece.mk buffer_type.ORIGINAL 1 1, piece.mk buffer_type.ORIGINAL 1 3] ∧
    piece_table_to_string c7_table = ['b', 'c', 'd'] ∧
    piece_table_to_string { c7_table with pieces :=
      (split_piece_at c7_table.pieces 0 1).getD [] } = ['b', 'b', 'c', 'd'] ∧
    piece_table_to_string { c7_table with pieces :=
      (split_piece_at c7_table.pieces 0 1).getD [] } ≠ piece_table_to_string c7_table := by
  decide

/-- Claim C8 counterexample: after an undo has left one record on the redo
stack, a successful insert leaves that redo record in place, refuting that
every successful mutation clears the redo stack; and a successful session
end pushes nothing onto the memsafe undo stack, its single record going to
the deprecated pointer-based stack instead. -/
theorem claim8_counterexample :
    c8_t2.memsafe_redo_stack.length = 1 ∧
    (piece_table_insert c8_t2 0 ['Y']).1 = true ∧
    (piece_table_insert c8_t2 0 ['Y']).2.memsafe_redo_stack.length = 1 ∧
    (piece_table_stop_micro_inserts c8_s1).1 = true ∧
    (piece_table_stop_micro_inserts c8_s1).2.memsafe_undo_stack = [] ∧
    (piece_table_stop_micro_inserts c8_s1).2.undo_stack.length = 1 := by
  decide

/-- Claim C9 counterexample: the remove of range 0, 2 of abcd is in bounds,
yet the call fails (the second split, at offset zero, fails) and still
pushes a Remove record onto the undo stack and leaves the chain changed: the
document becomes the five bytes a b c d NUL. The failed mutation therefore
perturbs both the journal and the chain. -/
theorem claim9_counterexample :
    (piece_table_memsafe_remove (piece_table_from_string abcdStr) 0 2).1 = false ∧
    (piece_table_memsafe_remove (piece_table_from_string abcdStr) 0 2).2.memsafe_undo_stack.length = 1 ∧
    piece_table_to_string (piece_table_memsafe_remove (piece_table_from_string abcdStr) 0 2).2 =
      ['a', 'b', 'c', 'd', nul] ∧
    piece_table_to_string (piece_table_memsafe_remove (piece_table_from_string abcdStr) 0 2).2 ≠
      piece_table_to_string (piece_table_from_string abcdStr) := by
  decide

/-- Claim C10 counterexample: with a micro-insert session open at position 0
of abcd, an insert at position 1 is not rejected: it reports success and
changes the logical document. -/
theorem claim10_counterexample :
    c10_open.piece_with_micro_inserts = some 0 ∧
    (piece_table_insert c10_open 1 ['X']).1 = true ∧
    piece_table_to_string (piece_table_insert c10_open 1 ['X']).2 ≠
      piece_table_to_string c10_open := by
  decide

/-- A successful resolution stops at a piece that is in the chain at the
returned index, with a local offset no larger than its length. -/
theorem resolve_lookup : ∀ (l : List piece) (off i : Nat) (p : piece) (rem : Nat),
    resolve l off = some (i, p, rem) → l[i]? = some p ∧ rem ≤ p.length := by
  intro l
  induction l with
  | nil => intro off i p rem h; simp [resolve] at h
  | cons q qs ih =>
      intro off i p rem h
      unfold resolve at h
      by_cases hle : off ≤ q.length
      · rw [if_pos hle] at h
        simp only [Option.some.injEq, Prod.mk.injEq] at h
        obtain ⟨h1, h2, h3⟩ := h
        subst h1; subst h2; subst h3
        exact ⟨by simp, hle⟩
      · rw [if_neg hle] at h
        cases hr : resolve qs (off - q.length) with
        | none => rw [hr] at h; simp at h
        | some v =>
            obtain ⟨i2, q2, r2⟩ := v
            rw [hr] at h
            simp only [Option.some.injEq, Prod.mk.injEq] at h
            obtain ⟨h1, h2, h3⟩ := h
            subst h1; subst h2; subst h3
            have hq := ih (off - q.length) i2 q2 r2 hr
            simpa using hq

/-- With the resolved piece present in the chain, the insertion body always
finds a chain update: the split is only attempted at a nonzero offset. -/
theorem insert_core_pieces_some (l : List piece) (i : Nat) (p : piece) (rem : Nat)
    (newp : piece) (hlook : l[i]? = some p) :
    ∃ ps, insert_core_pieces l i p rem newp = some ps := by
  unfold insert_core_pieces
  by_cases h1 : rem = p.length
  · exact ⟨_, by rw [if_pos h1]⟩
  · rw [if_neg h1]
    by_cases h2 : rem = 0
    · exact ⟨_, by rw [if_pos h2]⟩
    · rw [if_neg h2]
      unfold split_piece_at
      rw [if_neg h2, hlook]
      exact ⟨_, rfl⟩

/-- The insertion body touches only the ADD buffer and the chain: both
memsafe journal stacks and the session pointer are returned unchanged. -/
theorem insert_core_preserves (t : piece_table) (position : Nat) (string : List Char) :
    (insert_core t position string).2.memsafe_undo_stack = t.memsafe_undo_stack ∧
    (insert_core t position string).2.memsafe_redo_stack = t.memsafe_redo_stack ∧
    (insert_core t position string).2.piece_with_micro_inserts = t.piece_with_micro_inserts := by
  unfold insert_core
  split
  · exact ⟨rfl, rfl, rfl⟩
  · split
    · exact ⟨rfl, rfl, rfl⟩
    · exact ⟨rfl, rfl, rfl⟩

/-- Reduced form of the insertion body once the position has resolved. -/
theorem insert_core_eq (t : piece_table) (position : Nat) (string : List Char)
    (i : Nat) (p : piece) (rem : Nat)
    (hres : resolve t.pieces position = some (i, p, rem)) :
    insert_core t position string =
      match insert_core_pieces t.pieces i p rem
          (piece.mk buffer_type.ADD t.add_buffer.length (strlen string)) with
      | none => (false, { t with add_buffer := t.add_buffer ++ cstr string })
      | some ps => (true, { t with add_buffer := t.add_buffer ++ cstr string,
                                   pieces := ps }) := by
  unfold insert_core
  rw [hres]

/-- When the position resolves, the insertion body reports success. -/
theorem insert_core_success (t : piece_table) (position : Nat) (string : List Char)
    (i : Nat) (p : piece) (rem : Nat)
    (hres : resolve t.pieces position = some (i, p, rem)) :
    (insert_core t position string).1 = true := by
  have hlook := (resolve_lookup t.pieces position i p rem hres).1
  obtain ⟨ps, hps⟩ := insert_core_pieces_some t.pieces i p rem
    (piece.mk buffer_type.ADD t.add_buffer.length (strlen string)) hlook
  rw [insert_core_eq t position string i p rem hres, hps]

/-- Reduced form of piece_table_insert once the position has resolved: push
the Insert record, then run the insertion body. -/
theorem piece_table_insert_eq (t : piece_table) (position : Nat)
    (string : List Char) (r : Nat × piece × Nat)
    (hres : resolve t.pieces position = some r) :
    piece_table_insert t position string =
      insert_core { t with memsafe_undo_stack :=
        memsafe_operation_new operation_type.INSERT position 0 (some string) none ::
          t.memsafe_undo_stack } position string := by
  unfold piece_table_insert
  rw [hres]

/-- Reduced form of piece_table_memsafe_remove once both boundaries have
resolved: push the Remove record, then run the removal body. -/
theorem piece_table_memsafe_remove_eq (t : piece_table) (position length : Nat)
    (r1 r2 : Nat × piece × Nat)
    (h1 : resolve t.pieces position = some r1)
    (h2 : resolve t.pieces (position + length) = some r2) :
    piece_table_memsafe_remove t position length =
      (let msop := memsafe_operation_new operation_type.REMOVE position length none
         (piece_table_get_slice t position length)
       let t1 := { t with memsafe_undo_stack := msop :: t.memsafe_undo_stack }
       let r := remove_core_pieces t1.pieces position length
       (r.1, { t1 with pieces := r.2 })) := by
  unfold piece_table_memsafe_remove
  rw [h1, h2]

/-- Reduced form of piece_table_memsafe_replace once both boundaries have
resolved: push the Replace record, run the removal body, then on its success
the insertion body. -/
theorem piece_table_memsafe_replace_eq (t : piece_table) (position length : Nat)
    (string : List Char) (r1 r2 : Nat × piece × Nat)
    (h1 : resolve t.pieces position = some r1)
    (h2 : resolve t.pieces (position + length) = some r2) :
    piece_table_memsafe_replace t position length string =
      (let msop := memsafe_operation_new operation_type.REPLACE position length
         (some string) (piece_table_get_slice t position length)
       let t1 := { t with memsafe_undo_stack := msop :: t.memsafe_undo_stack }
       let r := remove_core_pieces t1.pieces position length
       if r.1 then insert_core { t1 with pieces := r.2 } position string
       else (false, { t1 with pieces := r.2 })) := by
  unfold piece_table_memsafe_replace
  rw [h1, h2]

/-- Claim C8 (amended): every successful memsafe mutation pushes exactly one
record onto the memsafe undo stack, and memsafe replace journals a single
Replace record rather than separate remove and insert records; however the
redo stack is left untouched, not cleared, and session end pushes its single
record onto the deprecated pointer-based undo stack, not the memsafe one. -/
theorem claim8_amended :
    (∀ (t : piece_table) (position : Nat) (string : List Char) (r : Nat × piece × Nat),
      resolve t.pieces position = some r →
      (piece_table_insert t position string).2.memsafe_undo_stack =
        memsafe_operation_new operation_type.INSERT position 0 (some string) none ::
          t.memsafe_undo_stack ∧
      (piece_table_insert t position string).2.memsafe_redo_stack =
        t.memsafe_redo_stack) ∧
    (∀ (t : piece_table) (position length : Nat) (r1 r2 : Nat × piece × Nat),
      resolve t.pieces position = some r1 →
      resolve t.pieces (position + length) = some r2 →
      (piece_table_memsafe_remove t position length).2.memsafe_undo_stack =
        memsafe_operation_new operation_type.REMOVE position length none
          (piece_table_get_slice t position length) :: t.memsafe_undo_stack ∧
      (piece_table_memsafe_remove t position length).2.memsafe_redo_stack =
        t.memsafe_redo_stack) ∧
    (∀ (t : piece_table) (position length : Nat) (string : List Char)
        (r1 r2 : Nat × piece × Nat),
      resolve t.pieces position = some r1 →
      resolve t.pieces (position + length) = some r2 →
      (piece_table_memsafe_replace t position length string).2.memsafe_undo_stack =
        memsafe_operation_new operation_type.REPLACE position length (some string)
          (piece_table_get_slice t position length) :: t.memsafe_undo_stack ∧
      (piece_table_memsafe_replace t position length string).2.memsafe_redo_stack =
        t.memsafe_redo_stack) ∧
    (∀ (t : piece_table) (op : operation),
      t.undo_with_micro_inserts = some op →
      (piece_table_stop_micro_inserts t).2.memsafe_undo_stack = t.memsafe_undo_stack ∧
      (piece_table_stop_micro_inserts t).2.undo_stack = op :: t.undo_stack ∧
      (piece_table_stop_micro_inserts t).2.memsafe_redo_stack = t.memsafe_redo_stack) := by
  refine ⟨?_, ?_, ?_, ?_⟩
  · intro t position string r hres
    rw [piece_table_insert_eq t position string r hres]
    constructor
    · rw [(insert_core_preserves _ _ _).1]
    · rw [(insert_core_preserves _ _ _).2.1]
  · intro t position length r1 r2 h1 h2
    rw [piece_table_memsafe_remove_eq t position length r1 r2 h1 h2]
    exact ⟨rfl, rfl⟩
  · intro t position length string r1 r2 h1 h2
    constructor
    · rw [piece_table_memsafe_replace_eq t position length string r1 r2 h1 h2]
      dsimp only
      split
      · rw [(insert_core_preserves _ _ _).1]
      · rfl
    · rw [piece_table_memsafe_replace_eq t position length string r1 r2 h1 h2]
      dsimp only
      split
      · rw [(insert_core_preserves _ _ _).2.1]
      · rfl
  · intro t op hop
    unfold piece_table_stop_micro_inserts
    rw [hop]
    exact ⟨rfl, rfl, rfl⟩

/-- Witness for the amended claim C8 at concrete states: an insert at
position 0 of ab, a remove and a replace of range 0, 1 of ab, and a session
end on the open-session state over ab. -/
theorem claim8_amended_witness :
    ((piece_table_insert (piece_table_from_string abStr) 0 ['Q']).2.memsafe_undo_stack =
      memsafe_operation_new operation_type.INSERT 0 0 (some ['Q']) none ::
        (piece_table_from_string abStr).memsafe_undo_stack ∧
     (piece_table_insert (piece_table_from_string abStr) 0 ['Q']).2.memsafe_redo_stack =
       (piece_table_from_string abStr).memsafe_redo_stack) ∧
    ((piece_table_memsafe_remove (piece_table_from_string abStr) 0 1).2.memsafe_undo_stack =
      memsafe_operation_new operation_type.REMOVE 0 1 none
        (piece_table_get_slice (piece_table_from_string abStr) 0 1) ::
        (piece_table_from_string abStr).memsafe_undo_stack ∧
     (piece_table_memsafe_remove (piece_table_from_string abStr) 0 1).2.memsafe_redo_stack =
       (piece_table_from_string abStr).memsafe_redo_stack) ∧
    ((piece_table_memsafe_replace (piece_table_from_string abStr) 0 1 ['Q']).2.memsafe_undo_stack =
      memsafe_operation_new operation_type.REPLACE 0 1 (some ['Q'])
        (piece_table_get_slice (piece_table_from_string abStr) 0 1) ::
        (piece_table_from_string abStr).memsafe_undo_stack ∧
     (piece_table_memsafe_replace (piece_table_from_string abStr) 0 1 ['Q']).2.memsafe_redo_stack =
       (piece_table_from_string abStr).memsafe_redo_stack) ∧
    ((piece_table_stop_micro_inserts c8_s1).2.memsafe_undo_stack =
       c8_s1.memsafe_undo_stack ∧
     (piece_table_stop_micro_inserts c8_s1).2.undo_stack =
       operation.mk operation_type.INSERT :: c8_s1.undo_stack ∧
     (piece_table_stop_micro_inserts c8_s1).2.memsafe_redo_stack =
       c8_s1.memsafe_redo_stack) :=
  ⟨claim8_amended.1 (piece_table_from_string abStr) 0 ['Q']
      (0, piece.mk buffer_type.ORIGINAL 0 2, 0) rfl,
   claim8_amended.2.1 (piece_table_from_string abStr) 0 1
      (0, piece.mk buffer_type.ORIGINAL 0 2, 0)
      (0, piece.mk buffer_type.ORIGINAL 0 2, 1) rfl rfl,
   claim8_amended.2.2.1 (piece_table_from_string abStr) 0 1 ['Q']
      (0, piece.mk buffer_type.ORIGINAL 0 2, 0)
      (0, piece.mk buffer_type.ORIGINAL 0 2, 1) rfl rfl,
   claim8_amended.2.2.2 c8_s1 (operation.mk operation_type.INSERT) rfl⟩

/-- Claim C9 (amended): when a mutation fails because a supplied position or
length does not resolve within the chain, the call returns failure with the
table unchanged: chain, buffers and both journals are exactly as before.
Failures arising after the bounds check, such as the split failure exhibited
by the counterexample, do perturb the state. -/
theorem claim9_amended :
    (∀ (t : piece_table) (position : Nat) (string : List Char),
      resolve t.pieces position = none →
      piece_table_insert t position string = (false, t)) ∧
    (∀ (t : piece_table) (position length : Nat),
      resolve t.pieces position = none ∨
        resolve t.pieces (position + length) = none →
      piece_table_memsafe_remove t position length = (false, t)) ∧
    (∀ (t : piece_table) (position length : Nat) (string : List Char),
      resolve t.pieces position = none ∨
        resolve t.pieces (position + length) = none →
      piece_table_memsafe_replace t position length string = (false, t)) := by
  refine ⟨?_, ?_, ?_⟩
  · intro t position string h
    unfold piece_table_insert
    rw [h]
  · intro t position length h
    unfold piece_table_memsafe_remove
    rcases h with h | h
    · rw [h]
    · cases h1 : resolve t.pieces position with
      | none => rfl
      | some v => rw [h]
  · intro t position length string h
    unfold piece_table_memsafe_replace
    rcases h with h | h
    · rw [h]
    · cases h1 : resolve t.pieces position with
      | none => rfl
      | some v => rw [h]

/-- Witness for the amended claim C9: position 5 is out of bounds for the
two byte document ab, and every mutation addressed there fails leaving the
table untouched. -/
theorem claim9_amended_witness :
    piece_table_insert (piece_table_from_string abStr) 5 ['X'] =
      (false, piece_table_from_string abStr) ∧
    piece_table_memsafe_remove (piece_table_from_string abStr) 5 1 =
      (false, piece_table_from_string abStr) ∧
    piece_table_memsafe_replace (piece_table_from_string abStr) 5 1 ['X'] =
      (false, piece_table_from_string abStr) :=
  ⟨claim9_amended.1 (piece_table_from_string abStr) 5 ['X'] rfl,
   claim9_amended.2.1 (piece_table_from_string abStr) 5 1 (Or.inl rfl),
   claim9_amended.2.2 (piece_table_from_string abStr) 5 1 ['X'] (Or.inl rfl)⟩

/-- Claim C10 (amended): while a micro-insert session is open, calls to the
mutating operations are not rejected; in particular an insert whose position
resolves within the chain reports success and leaves the session open. -/
theorem claim10_amended (t : piece_table) (position : Nat) (string : List Char)
    (anchor i : Nat) (p : piece) (rem : Nat)
    (hsession : t.piece_with_micro_inserts = some anchor)
    (hres : resolve t.pieces position = some (i, p, rem)) :
    (piece_table_insert t position string).1 = true ∧
    (piece_table_insert t position string).2.piece_with_micro_inserts = some anchor := by
  rw [piece_table_insert_eq t position string (i, p, rem) hres]
  constructor
  · exact insert_core_success _ position string i p rem hres
  · rw [(insert_core_preserves _ _ _).2.2]
    exact hsession

/-- Witness for the amended claim C10 at the concrete open-session state
over abcd: the insert at position 1 succeeds and the session stays open. -/
theorem claim10_amended_witness :
    (piece_table_insert c10_open 1 ['R']).1 = true ∧
    (piece_table_insert c10_open 1 ['R']).2.piece_with_micro_inserts = some 0 :=
  claim10_amended c10_open 1 ['R'] 0 1 (piece.mk buffer_type.ORIGINAL 0 4) 1 rfl rfl
